import Mathlib

/-!
Verification of the ldapcrud directory-entry management layer.

The repository ships two implementations of the `LDAPCRUD` class:
  * `src/index.js` — callback style; one fresh client per operation.
    Embedded below in namespace `V1`.
  * the promise-style library file (`src/unnamed/part_000`) — one client
    established at `init`, rename-on-update logic, bulk delete.
    Embedded below in namespace `V2`.

Entries are JavaScript objects; we model them as association lists from
attribute name to string value.  JavaScript-specific behaviour is modelled
explicitly: property access on a missing key yields `none` (undefined),
string interpolation coerces `undefined` to the string "undefined"
(`jsStr`), truthiness of a string is non-emptiness (`truthy`), and
property access on `undefined` itself raises a TypeError (`jsField`).
The LDAP transport is a collaborator: each operation takes the outcome
of the transport calls it may issue as oracle parameters and we record
the calls actually issued in a trace.
-/

/-- A directory entry: a JavaScript object mapping attribute names to
string values, modelled as an association list. -/
def Entry := List (String × String)

instance : DecidableEq Entry := by
  unfold Entry
  infer_instance

/-- JavaScript property read: first binding of the key, `none` when the
property is absent (undefined). -/
def getAttr : Entry → String → Option String
  | [], _ => none
  | (k, v) :: rest, a => if k = a then some v else getAttr rest a

/-- JavaScript property assignment: overwrite the first binding of the
key, or append a fresh binding. -/
def setAttr : Entry → String → String → Entry
  | [], k, v => [(k, v)]
  | (k1, v1) :: rest, k, v =>
      if k1 = k then (k, v) :: rest else (k1, v1) :: setAttr rest k v

/-- JavaScript truthiness of an optional string: absent and the empty
string are falsy, everything else truthy. -/
def truthy : Option String → Bool
  | some s => s ≠ ""
  | none => false

/-- JavaScript string coercion in template literals and `+`:
`undefined` becomes the string "undefined". -/
def jsStr : Option String → String
  | some s => s
  | none => "undefined"

/-- Relevant configuration fields of the LDAPCRUD instance. -/
structure Config where
  baseDN : String
  suffix : String
deriving DecidableEq

theorem getAttr_setAttr_self (e : Entry) (k v : String) :
    getAttr (setAttr e k v) k = some v := by
  induction e with
  | nil => simp [setAttr, getAttr]
  | cons hd tl ih =>
      obtain ⟨k1, v1⟩ := hd
      by_cases h : k1 = k
      · simp [setAttr, getAttr, h]
      · simp [setAttr, getAttr, h, ih]

theorem getAttr_setAttr_ne (e : Entry) (k k1 v : String) (h : k1 ≠ k) :
    getAttr (setAttr e k1 v) k = getAttr e k := by
  induction e with
  | nil => simp [setAttr, getAttr, h]
  | cons hd tl ih =>
      obtain ⟨k2, v2⟩ := hd
      by_cases h2 : k2 = k1
      · subst h2
        simp [setAttr, getAttr, h]
      · simp only [setAttr, if_neg h2]
        by_cases h3 : k2 = k
        · simp [getAttr, h3]
        · simp [getAttr, h3, ih]

/-- Entry construction shared by both implementations of `create`
(src/index.js lines 181-190 and the library file lines 174-183):
derive `displayName` when it is falsy, set `name` and `cn` to it,
build the DN from `cn`, the optional relative `dn` field and `baseDN`,
and compute `userPrincipalName` by unconditional concatenation of
`sAMAccountName` with the configured suffix.  Returns the mutated
entry object together with the DN string passed to the transport. -/
def buildEntry (cfg : Config) (entry : Entry) : Entry × String :=
  let entry :=
    if truthy (getAttr entry "displayName") then entry
    else setAttr entry "displayName"
      (jsStr (getAttr entry "givenName") ++ " " ++ jsStr (getAttr entry "sn"))
  let displayName := jsStr (getAttr entry "displayName")
  let entry := setAttr entry "name" displayName
  let entry := setAttr entry "cn" displayName
  let dnMid :=
    if truthy (getAttr entry "dn") then "," ++ jsStr (getAttr entry "dn") ++ ","
    else ","
  let dn := "CN=" ++ jsStr (getAttr entry "cn") ++ dnMid ++ cfg.baseDN
  let entry := setAttr entry "distinguishedName" dn
  let entry := setAttr entry "userPrincipalName"
    (jsStr (getAttr entry "sAMAccountName") ++ cfg.suffix)
  (entry, dn)

namespace V1

/-- Client-level events issued by an operation of the callback
implementation, in order. -/
inductive Ev
  | bind
  | unbind
  | add (dn : String)
deriving DecidableEq

/-- Errors surfaced by `create` of the callback implementation. -/
inductive CreateErr
  | validation (msg : String)
  | bindErr (e : String)
  | addErr (e : String)
deriving DecidableEq

/-- `create` from src/index.js lines 172-197.  `bindO` is the outcome of
the bind performed by `createClient`; `addO` maps the DN passed to
`client.add` to the transport outcome.  Returns the operation result,
the ordered trace of client-level events, and the state of the
caller-supplied entry object after the call (the code mutates it in
place). -/
def create (cfg : Config) (entry : Entry)
    (bindO : Except String Unit) (addO : String → Except String Unit) :
    Except CreateErr Unit × List Ev × Entry :=
  if entry = ([] : Entry) then
    (.error (.validation "Entry is empty"), [], entry)
  else if !(truthy (getAttr entry "sn")) || !(truthy (getAttr entry "givenName")) then
    (.error (.validation "sn or givenName attributes is empty!"), [], entry)
  else
    match bindO with
    | .error e => (.error (.bindErr e), [.bind, .unbind], entry)
    | .ok () =>
        let built := buildEntry cfg entry
        match addO built.2 with
        | .error e => (.error (.addErr e), [.bind, .add built.2], built.1)
        | .ok () => (.ok (), [.bind, .add built.2], built.1)

/-- Errors surfaced by `authenticate` of the callback implementation:
the synthetic invalid-credentials error built for empty arguments
(src/index.js lines 122-129), or a propagated transport error. -/
inductive AuthErr
  | invalidCredentials
  | ldap (name : String) (detail : String)
deriving DecidableEq

/-- `authenticate` from src/index.js lines 120-141.  `bindO` is the
outcome the transport would give a bind as (dn, password); the error
side carries the transport error name and detail.  Returns the result
and whether the transport was contacted. -/
def authenticate (dn password : String)
    (bindO : Except (String × String) Unit) :
    Except AuthErr Bool × Bool :=
  if dn = "" || password = "" then
    (.error .invalidCredentials, false)
  else
    match bindO with
    | .ok () => (.ok true, true)
    | .error e =>
        if e.1 = "InvalidCredentialsError" then (.ok false, true)
        else (.error (.ldap e.1 e.2), true)

end V1

namespace V2

/-- A requested attribute change: `{type, attr, value}` as supplied by the
caller of `update`.  The value may be absent (a JavaScript object without
the field). -/
structure ChangeReq where
  type : String
  attr : String
  value : Option String
deriving DecidableEq

/-- A materialized ldap.Change: operation plus the single modification
pair actually sent to the transport (only changes with a defined
resolved value are materialized). -/
structure LChange where
  operation : String
  attr : String
  value : String
deriving DecidableEq

/-- Transport calls issued by `update` / `delete` of the promise
implementation after entry resolution, in order. -/
inductive TCall
  | modify (dn : Option String) (changes : List LChange)
  | modifyDN (dn : Option String) (newDN : String)
  | del (dn : Option String)
deriving DecidableEq

/-- Runtime errors of the promise implementation: a JavaScript TypeError
from dereferencing `undefined`, a propagated transport error, or the
NotFoundError named by the design document (never constructed by the
code; present so that statements about it can be made). -/
inductive JsErr
  | typeError (msg : String)
  | transport (e : String)
  | notFound
deriving DecidableEq

/-- JavaScript property access `user[attr]` where `user` may be
`undefined` (`users[0]` on an empty result): accessing a property of
`undefined` throws a TypeError; otherwise it yields the attribute value
(possibly undefined). -/
def jsField (user : Option Entry) (a : String) : Except JsErr (Option String) :=
  match user with
  | none => .error (.typeError ("Cannot read property " ++ a ++ " of undefined"))
  | some u => .ok (getAttr u a)

/-- The rename block of `update` (library file lines 276-292): look up
caller-supplied `sn` and `givenName` changes, fall back to the resolved
entry per attribute, build the full name, append a `displayName`
replace-change to the request list and compute the new DN. -/
def renamePlan (user : Option Entry) (changedAttrs : List ChangeReq)
    (baseDN : String) : Except JsErr (List ChangeReq × String) := do
  let snC := changedAttrs.find? (fun c => c.attr = "sn")
  let gnC := changedAttrs.find? (fun c => c.attr = "givenName")
  let sn ← match snC with
    | some c => Except.ok c.value
    | none => jsField user "sn"
  let givenName ← match gnC with
    | some c => Except.ok c.value
    | none => jsField user "givenName"
  let fullName := jsStr givenName ++ " " ++ jsStr sn
  return (changedAttrs ++ [⟨"replace", "displayName", some fullName⟩],
          "CN=" ++ fullName ++ "," ++ baseDN)

/-- The planning loop of `update` (library file lines 295-306): a
`delete`-type change resolves to the current entry value, any other type
to the request value; changes whose resolved value is undefined are
dropped.  Accessing the current value of an undefined user throws. -/
def planChanges (user : Option Entry) :
    List ChangeReq → Except JsErr (List LChange)
  | [] => .ok []
  | c :: rest => do
      let v ← (if c.type = "delete" then jsField user c.attr else .ok c.value)
      let tail ← planChanges user rest
      match v with
      | none => return tail
      | some s => return (⟨c.type, c.attr, s⟩ :: tail)

/-- `update` from the promise library file lines 264-321.  `users` is the
sequence of entries the resolving read returns for the filter; `modifyO`
and `renameO` are the transport outcomes of `client.modify` and
`client.modifyDN`.  Returns the settled result together with the ordered
trace of transport calls issued after resolution. -/
def update (cfg : Config) (changedAttrs : List ChangeReq) (users : List Entry)
    (modifyO : Option String → List LChange → Except String Unit)
    (renameO : Option String → String → Except String Unit) :
    Except JsErr Unit × List TCall :=
  let rename :=
    (changedAttrs.map (fun c => c.attr)).any
      (fun a => a == "givenName" || a == "sn")
  let user := users.head?
  let planned : Except JsErr (List ChangeReq × Option String) :=
    if rename then
      (renamePlan user changedAttrs cfg.baseDN).map (fun p => (p.1, some p.2))
    else .ok (changedAttrs, none)
  match planned with
  | .error e => (.error e, [])
  | .ok (cs, newDN) =>
      match planChanges user cs with
      | .error e => (.error e, [])
      | .ok [] => (.ok (), [])
      | .ok changes =>
          match jsField user "dn" with
          | .error e => (.error e, [])
          | .ok dnOpt =>
              match modifyO dnOpt changes with
              | .error te =>
                  (.error (.transport te), [.modify dnOpt changes])
              | .ok () =>
                  if rename then
                    match newDN with
                    | some nd =>
                        match renameO dnOpt nd with
                        | .error te =>
                            (.error (.transport te),
                             [.modify dnOpt changes, .modifyDN dnOpt nd])
                        | .ok () =>
                            (.ok (), [.modify dnOpt changes, .modifyDN dnOpt nd])
                    | none => (.ok (), [.modify dnOpt changes])
                  else (.ok (), [.modify dnOpt changes])

/-- Promise.all aggregation: the resolved values when every promise
fulfils, otherwise the first rejection in sequence order. -/
def collectAll : List (Except String Unit) → Except String (List Bool)
  | [] => .ok []
  | .ok () :: rest => (collectAll rest).map (fun l => true :: l)
  | .error e :: _ => .error e

/-- `delete` from the promise library file lines 337-348: map every
resolved entry to an independent `client.del` on its dn and aggregate
with Promise.all.  `delO` is the transport outcome per dn.  Returns the
aggregate result and the trace of del calls, one per resolved entry. -/
def del (users : List Entry) (delO : Option String → Except String Unit) :
    Except String (List Bool) × List TCall :=
  let outcomes := users.map (fun u => delO (getAttr u "dn"))
  (collectAll outcomes, users.map (fun u => TCall.del (getAttr u "dn")))

/-- The dn argument of a transport call. -/
def TCall.dnOf : TCall → Option String
  | .modify dn _ => dn
  | .modifyDN dn _ => dn
  | .del dn => dn

/-- The effective value the planning loop uses for one change against a
resolved entry. -/
def resolvedVal (u : Entry) (c : ChangeReq) : Option String :=
  if c.type = "delete" then getAttr u c.attr else c.value

/-- The effective sn / givenName value the rename block uses: the
caller-supplied change for the attribute when present, the resolved
entry value otherwise. -/
def effValue (cs : List ChangeReq) (u : Entry) (a : String) : Option String :=
  match cs.find? (fun c => c.attr = a) with
  | some c => c.value
  | none => getAttr u a

/-- The full name the rename block computes. -/
def fullNameOf (cs : List ChangeReq) (u : Entry) : String :=
  jsStr (effValue cs u "givenName") ++ " " ++ jsStr (effValue cs u "sn")

end V2

/-! ## Supporting lemmas -/

theorem getAttr_setAttr (e : Entry) (k k1 v : String) :
    getAttr (setAttr e k1 v) k = if k1 = k then some v else getAttr e k := by
  by_cases h : k1 = k
  · subst h
    simp [getAttr_setAttr_self]
  · simp [h, getAttr_setAttr_ne e k k1 v h]

theorem truthy_none_of_getAttr_nil (a : String) :
    truthy (getAttr ([] : Entry) a) = false := by
  simp [getAttr, truthy]

namespace V2

theorem jsField_some (u : Entry) (a : String) :
    jsField (some u) a = .ok (getAttr u a) := rfl

/-- Characterization of the planning loop against a resolved entry: the
materialized change set keeps, in request order, exactly the changes
with a defined resolved value. -/
theorem planChanges_some (u : Entry) (cs : List ChangeReq) :
    planChanges (some u) cs =
      .ok (cs.filterMap (fun c =>
        (resolvedVal u c).map (fun v => ⟨c.type, c.attr, v⟩))) := by
  induction cs with
  | nil => rfl
  | cons c rest ih =>
      by_cases hd : c.type = "delete"
      · simp only [planChanges, hd, if_pos, jsField_some, List.filterMap_cons,
          resolvedVal, Except.bind, bind, ih]
        cases getAttr u c.attr <;> simp [pure, Except.pure]
      · simp only [planChanges, hd, if_neg, not_false_iff, jsField_some,
          List.filterMap_cons, resolvedVal, Except.bind, bind, ih, ite_false]
        cases c.value <;> simp [pure, Except.pure]

/-- The planning loop when the resolving read returned no entry and no
change is `delete`-typed: the request values are materialized directly
(the entry is never dereferenced). -/
theorem planChanges_none (cs : List ChangeReq)
    (h : ∀ c ∈ cs, c.type ≠ "delete") :
    planChanges none cs =
      .ok (cs.filterMap (fun c =>
        c.value.map (fun v => ⟨c.type, c.attr, v⟩))) := by
  induction cs with
  | nil => rfl
  | cons c rest ih =>
      have hc : c.type ≠ "delete" := h c (by simp)
      have ih2 := ih (fun c hm => h c (by simp [hm]))
      simp only [planChanges, hc, if_neg, not_false_iff, List.filterMap_cons,
        Except.bind, bind, ih2, ite_false]
      cases c.value <;> simp [pure, Except.pure]

/-- The rename block against a resolved entry: it always succeeds,
appends a displayName replace-change holding the full name, and derives
the new DN from it. -/
theorem renamePlan_some (u : Entry) (cs : List ChangeReq) (b : String) :
    renamePlan (some u) cs b =
      .ok (cs ++ [⟨"replace", "displayName", some (fullNameOf cs u)⟩],
           "CN=" ++ fullNameOf cs u ++ "," ++ b) := by
  unfold renamePlan fullNameOf effValue
  cases hsn : cs.find? (fun c => c.attr = "sn") <;>
    cases hgn : cs.find? (fun c => c.attr = "givenName") <;>
      simp [jsField_some, Except.bind, bind, pure, Except.pure]

/-- Rename detection holds exactly when some requested change names
givenName or sn. -/
theorem rename_detect (cs : List ChangeReq) :
    ((cs.map (fun c => c.attr)).any
        (fun a => a == "givenName" || a == "sn") = true) ↔
      ∃ c ∈ cs, c.attr = "givenName" ∨ c.attr = "sn" := by
  simp [List.any_eq_true, List.mem_map]

/-- Promise.all of fulfilled promises resolves with all values. -/
theorem collectAll_ok (xs : List (Except String Unit))
    (h : ∀ x ∈ xs, x = .ok ()) :
    collectAll xs = .ok (xs.map (fun _ => true)) := by
  induction xs with
  | nil => rfl
  | cons x rest ih =>
      have hx := h x (by simp)
      subst hx
      simp [collectAll, Except.map, ih (fun y hy => h y (by simp [hy]))]

/-- Planning the request list with the synthesized displayName change
appended: the displayName replace-change always survives, as the last
materialized change. -/
theorem planChanges_append_display (u : Entry) (cs : List ChangeReq) (f : String) :
    planChanges (some u) (cs ++ [⟨"replace", "displayName", some f⟩])
      = .ok ((cs.filterMap (fun c =>
          (resolvedVal u c).map (fun v => ⟨c.type, c.attr, v⟩)))
          ++ [⟨"replace", "displayName", f⟩]) := by
  rw [planChanges_some, List.filterMap_append]
  simp [resolvedVal]

/-- Characterization of `update` when no requested change touches
givenName or sn: plan the request list against the first resolved entry,
short-circuit on an empty change set, otherwise issue exactly one
modify. -/
theorem update_norename_eq (cfg : Config) (cs : List ChangeReq)
    (users : List Entry)
    (modifyO : Option String → List LChange → Except String Unit)
    (renameO : Option String → String → Except String Unit)
    (hr : ((cs.map (fun c => c.attr)).any
        (fun a => a == "givenName" || a == "sn")) = false) :
    update cfg cs users modifyO renameO =
      match planChanges users.head? cs with
      | .error e => (.error e, [])
      | .ok [] => (.ok (), [])
      | .ok changes =>
          match jsField users.head? "dn" with
          | .error e => (.error e, [])
          | .ok dnOpt =>
              match modifyO dnOpt changes with
              | .error te => (.error (.transport te), [.modify dnOpt changes])
              | .ok () => (.ok (), [.modify dnOpt changes]) := by
  simp only [update, hr, Bool.false_eq_true, if_false]

/-- Characterization of `update` when a requested change touches
givenName or sn and an entry resolves: the full name is computed with
caller-supplied values taking precedence per attribute, a displayName
replace-change is appended and survives planning, one modify on the
first entry is issued, and a DN rename to CN=fullName,baseDN follows
exactly when the modify succeeds. -/
theorem update_rename_eq (cfg : Config) (cs : List ChangeReq) (u : Entry)
    (rest : List Entry)
    (modifyO : Option String → List LChange → Except String Unit)
    (renameO : Option String → String → Except String Unit)
    (hr : ((cs.map (fun c => c.attr)).any
        (fun a => a == "givenName" || a == "sn")) = true) :
    update cfg cs (u :: rest) modifyO renameO =
      match modifyO (getAttr u "dn")
          ((cs.filterMap (fun c =>
             (resolvedVal u c).map (fun v => ⟨c.type, c.attr, v⟩)))
           ++ [⟨"replace", "displayName", fullNameOf cs u⟩]) with
      | .error te =>
          (.error (.transport te),
           [.modify (getAttr u "dn")
              ((cs.filterMap (fun c =>
                 (resolvedVal u c).map (fun v => ⟨c.type, c.attr, v⟩)))
               ++ [⟨"replace", "displayName", fullNameOf cs u⟩])])
      | .ok () =>
          match renameO (getAttr u "dn")
              ("CN=" ++ fullNameOf cs u ++ "," ++ cfg.baseDN) with
          | .error te =>
              (.error (.transport te),
               [.modify (getAttr u "dn")
                  ((cs.filterMap (fun c =>
                     (resolvedVal u c).map (fun v => ⟨c.type, c.attr, v⟩)))
                   ++ [⟨"replace", "displayName", fullNameOf cs u⟩]),
                .modifyDN (getAttr u "dn")
                  ("CN=" ++ fullNameOf cs u ++ "," ++ cfg.baseDN)])
          | .ok () =>
              (.ok (),
               [.modify (getAttr u "dn")
                  ((cs.filterMap (fun c =>
                     (resolvedVal u c).map (fun v => ⟨c.type, c.attr, v⟩)))
                   ++ [⟨"replace", "displayName", fullNameOf cs u⟩]),
                .modifyDN (getAttr u "dn")
                  ("CN=" ++ fullNameOf cs u ++ "," ++ cfg.baseDN)]) := by
  simp only [update, hr, if_true, List.head?_cons, renamePlan_some, Except.map,
    planChanges_append_display, jsField_some]
  cases hA : cs.filterMap (fun c =>
      (resolvedVal u c).map (fun v => (⟨c.type, c.attr, v⟩ : LChange))) with
  | nil => rfl
  | cons x xs => rfl

/-- Every transport call `update` issues targets the dn of the first
resolved entry. -/
theorem update_calls_dn (cfg : Config) (cs : List ChangeReq) (u : Entry)
    (rest : List Entry)
    (modifyO : Option String → List LChange → Except String Unit)
    (renameO : Option String → String → Except String Unit) :
    ∀ call ∈ (update cfg cs (u :: rest) modifyO renameO).2,
      call.dnOf = getAttr u "dn" := by
  by_cases hr : ((cs.map (fun c => c.attr)).any
      (fun a => a == "givenName" || a == "sn")) = true
  · rw [update_rename_eq cfg cs u rest modifyO renameO hr]
    cases modifyO (getAttr u "dn") ((cs.filterMap (fun c =>
        (resolvedVal u c).map (fun v => (⟨c.type, c.attr, v⟩ : LChange))))
        ++ [⟨"replace", "displayName", fullNameOf cs u⟩]) with
    | error te => simp [TCall.dnOf]
    | ok _ =>
        cases renameO (getAttr u "dn")
            ("CN=" ++ fullNameOf cs u ++ "," ++ cfg.baseDN) with
        | error te => simp [TCall.dnOf]
        | ok _ => simp [TCall.dnOf]
  · rw [update_norename_eq cfg cs (u :: rest) modifyO renameO
      (by simpa using hr)]
    simp only [List.head?_cons, jsField_some]
    cases hp : planChanges (some u) cs with
    | error e => simp
    | ok changes =>
        cases changes with
        | nil => simp
        | cons x xs =>
            cases hmo : modifyO (getAttr u "dn") (x :: xs) with
            | error te => simp [hmo, TCall.dnOf]
            | ok _ => simp [hmo, TCall.dnOf]

/-- Planning against a missing entry either materializes a change set or
throws a TypeError from the delete-type dereference of the undefined
entry: no other error shape can arise. -/
theorem planChanges_none_shape (cs : List ChangeReq) :
    (∃ l, planChanges none cs = .ok l) ∨
    (∃ msg, planChanges none cs = .error (.typeError msg)) := by
  induction cs with
  | nil => exact Or.inl ⟨[], rfl⟩
  | cons c rest ih =>
      by_cases hd : c.type = "delete"
      · refine Or.inr ⟨"Cannot read property " ++ c.attr ++ " of undefined", ?_⟩
        simp [planChanges, hd, jsField, bind, Except.bind]
      · rcases ih with ⟨l, hl⟩ | ⟨msg, hm⟩
        · refine Or.inl ?_
          cases hv : c.value with
          | none =>
              exact ⟨l, by
                simp [planChanges, hd, hv, hl, bind, Except.bind, pure, Except.pure]⟩
          | some s =>
              exact ⟨⟨c.type, c.attr, s⟩ :: l, by
                simp [planChanges, hd, hv, hl, bind, Except.bind, pure, Except.pure]⟩
        · refine Or.inr ⟨msg, ?_⟩
          simp [planChanges, hd, hm, bind, Except.bind]

/-- Appending the synthesized displayName change: it survives planning
as the last materialized change whenever planning the prefix succeeds,
and any planning error in the prefix propagates. -/
theorem planChanges_append_one (user : Option Entry) (cs : List ChangeReq)
    (f : String) :
    planChanges user (cs ++ [⟨"replace", "displayName", some f⟩]) =
      match planChanges user cs with
      | .error e => .error e
      | .ok l => .ok (l ++ [⟨"replace", "displayName", f⟩]) := by
  induction cs with
  | nil => rfl
  | cons c rest ih =>
      cases hV : (if c.type = "delete" then jsField user c.attr
          else .ok c.value : Except JsErr (Option String)) with
      | error e =>
          simp [planChanges, hV, bind, Except.bind]
      | ok v =>
          cases hrest : planChanges user rest with
          | error e =>
              simp [planChanges, hV, hrest, ih, bind, Except.bind]
          | ok l =>
              cases v <;>
                simp [planChanges, hV, hrest, ih, bind, Except.bind,
                  pure, Except.pure]

/-- Planning against a missing entry resolves to the empty change set
exactly when no requested change is delete-typed and every requested
value is undefined. -/
theorem planChanges_none_eq_nil_iff (cs : List ChangeReq) :
    planChanges none cs = .ok [] ↔
      ∀ c ∈ cs, c.type ≠ "delete" ∧ c.value = none := by
  induction cs with
  | nil => simp [planChanges]
  | cons c rest ih =>
      by_cases hd : c.type = "delete"
      · simp [planChanges, hd, jsField, bind, Except.bind, List.forall_mem_cons]
      · cases hv : c.value with
        | some s =>
            cases hrest : planChanges none rest with
            | error e =>
                simp [planChanges, hd, hv, hrest, bind, Except.bind,
                  List.forall_mem_cons]
            | ok tl =>
                simp [planChanges, hd, hv, hrest, bind, Except.bind,
                  pure, Except.pure, List.forall_mem_cons]
        | none =>
            cases hrest : planChanges none rest with
            | error e =>
                simp [planChanges, hd, hv, hrest, bind, Except.bind,
                  List.forall_mem_cons, ← ih]
            | ok tl =>
                simp [planChanges, hd, hv, hrest, bind, Except.bind,
                  pure, Except.pure, List.forall_mem_cons, ← ih]

end V2

/-! ## Claim theorems -/

/-- C7: for every entry record missing `sn` or `givenName` (empty or
absent), `create` fails with a validation error, issues no transport
call, and leaves the entry untouched. -/
theorem c7_create_validation (cfg : Config) (e : Entry)
    (bindO : Except String Unit) (addO : String → Except String Unit)
    (h : truthy (getAttr e "sn") = false ∨ truthy (getAttr e "givenName") = false) :
    ∃ msg, V1.create cfg e bindO addO = (.error (.validation msg), [], e) := by
  by_cases he : e = ([] : Entry)
  · exact ⟨"Entry is empty", by simp [V1.create, he]⟩
  · refine ⟨"sn or givenName attributes is empty!", ?_⟩
    rcases h with h | h <;> simp [V1.create, he, h]

/-- C7 witness: the empty-sn entry is rejected without any client
event. -/
theorem c7_witness :
    ∃ msg, V1.create ⟨"DC=x", "@c"⟩ [("givenName", "Test")] (.ok ())
      (fun _ => .ok ()) = (.error (.validation msg), [], [("givenName", "Test")]) :=
  c7_create_validation ⟨"DC=x", "@c"⟩ [("givenName", "Test")] (.ok ())
    (fun _ => .ok ()) (Or.inl (by decide))

/-- C6: authenticate fails fast with the invalid-credentials error and
no transport contact when either argument is empty; otherwise it
resolves false exactly when the bind fails with InvalidCredentialsError,
resolves true on bind success, and propagates any other bind failure
unmodified. -/
theorem c6_authenticate (dn pw : String) (bindO : Except (String × String) Unit) :
    ((dn = "" ∨ pw = "") →
      V1.authenticate dn pw bindO = (.error .invalidCredentials, false)) ∧
    (dn ≠ "" → pw ≠ "" →
      (((V1.authenticate dn pw bindO).1 = .ok false) ↔
        ∃ d, bindO = .error ("InvalidCredentialsError", d)) ∧
      (bindO = .ok () → V1.authenticate dn pw bindO = (.ok true, true)) ∧
      (∀ en ed, bindO = .error (en, ed) → en ≠ "InvalidCredentialsError" →
        V1.authenticate dn pw bindO = (.error (.ldap en ed), true))) := by
  refine ⟨fun h => ?_, fun hdn hpw => ?_⟩
  · rcases h with h | h <;> simp [V1.authenticate, h]
  · refine ⟨?_, fun hb => by simp [V1.authenticate, hdn, hpw, hb],
      fun en ed hb hn => by simp [V1.authenticate, hdn, hpw, hb, hn]⟩
    constructor
    · intro hf
      match hb : bindO with
      | .ok () => simp [V1.authenticate, hdn, hpw, hb] at hf
      | .error (en, ed) =>
          by_cases hn : en = "InvalidCredentialsError"
          · exact ⟨ed, by rw [hn]⟩
          · simp [V1.authenticate, hdn, hpw, hb, hn] at hf
    · rintro ⟨d, rfl⟩
      simp [V1.authenticate, hdn, hpw]

/-- C6 witness: empty principal is rejected without contacting the
transport. -/
theorem c6_witness :
    V1.authenticate "" "anything" (.ok ()) = (.error .invalidCredentials, false) :=
  (c6_authenticate "" "anything" (.ok ())).1 (Or.inl rfl)

/-- C8 counterexample: for a create input with no `sAMAccountName` and
suffix "@c.com", the derived `userPrincipalName` is "undefined@c.com",
not the suffix-only string "@c.com" the claim states. -/
theorem c8_counterexample :
    getAttr (buildEntry ⟨"DC=x", "@c.com"⟩
        [("sn", "User"), ("givenName", "Test")]).1 "userPrincipalName"
      = some "undefined@c.com" ∧ "undefined@c.com" ≠ "@c.com" :=
  ⟨rfl, by decide⟩

/-- C8 amended: `userPrincipalName` is the unconditional concatenation
of the JavaScript string coercion of `sAMAccountName` with the suffix;
with `sAMAccountName` absent this is the string "undefined" followed by
the suffix, not the suffix alone. -/
theorem c8_upn_concatenation (cfg : Config) (e : Entry) :
    getAttr (buildEntry cfg e).1 "userPrincipalName"
      = some (jsStr (getAttr e "sAMAccountName") ++ cfg.suffix) ∧
    (getAttr e "sAMAccountName" = none →
      getAttr (buildEntry cfg e).1 "userPrincipalName"
        = some ("undefined" ++ cfg.suffix)) := by
  have hmain : getAttr (buildEntry cfg e).1 "userPrincipalName"
      = some (jsStr (getAttr e "sAMAccountName") ++ cfg.suffix) := by
    unfold buildEntry
    by_cases h : truthy (getAttr e "displayName") = true <;>
      simp [h, getAttr_setAttr]
  exact ⟨hmain, fun habs => by rw [hmain, habs]; rfl⟩

/-- C8 amended witness: a present account name concatenates as claimed. -/
theorem c8_witness :
    getAttr (buildEntry ⟨"DC=x", "@c.com"⟩
        [("sn", "User"), ("givenName", "Test"), ("sAMAccountName", "tu")]).1
      "userPrincipalName" = some "undefined@c.com" ∨
    getAttr (buildEntry ⟨"DC=x", "@c.com"⟩
        [("sn", "User"), ("givenName", "Test"), ("sAMAccountName", "tu")]).1
      "userPrincipalName" = some "tu@c.com" :=
  Or.inr (c8_upn_concatenation ⟨"DC=x", "@c.com"⟩
    [("sn", "User"), ("givenName", "Test"), ("sAMAccountName", "tu")]).1

/-- C2: for every valid create input with no explicit displayName, the
built entry has displayName = givenName-space-sn with cn and name equal
to it; the distinguished name is CN=cn,relativePath,baseDN when a
relative dn field is supplied and CN=cn,baseDN otherwise, and the entry
the caller holds after create is exactly the built entry. -/
theorem c2_create_derivation (cfg : Config) (e : Entry) (sn gn : String)
    (addO : String → Except String Unit)
    (hsn : getAttr e "sn" = some sn) (hsne : sn ≠ "")
    (hgn : getAttr e "givenName" = some gn) (hgne : gn ≠ "")
    (hdp : getAttr e "displayName" = none) :
    getAttr (buildEntry cfg e).1 "displayName" = some (gn ++ " " ++ sn) ∧
    getAttr (buildEntry cfg e).1 "cn" = some (gn ++ " " ++ sn) ∧
    getAttr (buildEntry cfg e).1 "name" = some (gn ++ " " ++ sn) ∧
    getAttr (buildEntry cfg e).1 "distinguishedName" = some (buildEntry cfg e).2 ∧
    (∀ rel, getAttr e "dn" = some rel → rel ≠ "" →
      (buildEntry cfg e).2
        = "CN=" ++ (gn ++ " " ++ sn) ++ "," ++ rel ++ "," ++ cfg.baseDN) ∧
    (truthy (getAttr e "dn") = false →
      (buildEntry cfg e).2 = "CN=" ++ (gn ++ " " ++ sn) ++ "," ++ cfg.baseDN) ∧
    (V1.create cfg e (.ok ()) addO).2.2 = (buildEntry cfg e).1 := by
  have htr : truthy (getAttr e "displayName") = false := by
    rw [hdp]; rfl
  have hstr : truthy (getAttr e "sn") = true := by
    rw [hsn]; simp [truthy, hsne]
  have hgtr : truthy (getAttr e "givenName") = true := by
    rw [hgn]; simp [truthy, hgne]
  have hnil : e ≠ ([] : Entry) := by
    intro h
    rw [h] at hsn
    simp [getAttr] at hsn
  refine ⟨?_, ?_, ?_, ?_, ?_, ?_, ?_⟩
  · simp [buildEntry, htr, hsn, hgn, jsStr, getAttr_setAttr]
  · simp [buildEntry, htr, hsn, hgn, jsStr, getAttr_setAttr]
  · simp [buildEntry, htr, hsn, hgn, jsStr, getAttr_setAttr]
  · simp [buildEntry, htr, hsn, hgn, jsStr, getAttr_setAttr]
  · intro rel hrel hrele
    have hdtr : truthy (getAttr e "dn") = true := by
      rw [hrel]; simp [truthy, hrele]
    simp [buildEntry, htr, hsn, hgn, hrel, jsStr, getAttr_setAttr, hdtr]
    rw [if_pos (by simp [truthy, hrele])]
    simp [String.append_assoc]
  · intro hdn
    simp [buildEntry, htr, hsn, hgn, jsStr, getAttr_setAttr, hdn]
  · simp only [V1.create, hstr, hgtr, if_neg hnil, Bool.not_true, Bool.or_self,
      Bool.false_or, if_neg]
    cases addO (buildEntry cfg e).2 <;> simp

/-- C2 witness: the concrete scenario entry derives Test User under the
base DN. -/
theorem c2_witness :
    getAttr (buildEntry ⟨"DC=x", "@c"⟩
        [("sn", "User"), ("givenName", "Test")]).1 "displayName"
      = some "Test User" :=
  (c2_create_derivation ⟨"DC=x", "@c"⟩ [("sn", "User"), ("givenName", "Test")]
    "User" "Test" (fun _ => .ok ()) rfl (by decide) rfl (by decide) rfl).1

/-- C10: create mutates the caller-supplied entry record: after a call
that reaches the transport, the record the caller holds is the built record,
carries the derived displayName, cn, name, distinguishedName and
userPrincipalName fields, and differs from the record passed in. -/
theorem c10_create_mutates (cfg : Config) (e : Entry)
    (addO : String → Except String Unit)
    (hsn : truthy (getAttr e "sn") = true)
    (hgn : truthy (getAttr e "givenName") = true)
    (hdp : truthy (getAttr e "displayName") = false)
    (hcn : getAttr e "cn" = none) :
    (V1.create cfg e (.ok ()) addO).2.2 = (buildEntry cfg e).1 ∧
    ((getAttr (buildEntry cfg e).1 "displayName").isSome = true ∧
     (getAttr (buildEntry cfg e).1 "cn").isSome = true ∧
     (getAttr (buildEntry cfg e).1 "name").isSome = true ∧
     (getAttr (buildEntry cfg e).1 "distinguishedName").isSome = true ∧
     (getAttr (buildEntry cfg e).1 "userPrincipalName").isSome = true) ∧
    (V1.create cfg e (.ok ()) addO).2.2 ≠ e := by
  have hnil : e ≠ ([] : Entry) := by
    intro h
    rw [h] at hsn
    simp [getAttr, truthy] at hsn
  have hafter : (V1.create cfg e (.ok ()) addO).2.2 = (buildEntry cfg e).1 := by
    simp only [V1.create, hsn, hgn, if_neg hnil, Bool.not_true, Bool.or_self,
      Bool.false_or, if_neg]
    cases addO (buildEntry cfg e).2 <;> simp
  have hbcn : getAttr (buildEntry cfg e).1 "cn"
      = some (jsStr (getAttr (setAttr e "displayName"
          (jsStr (getAttr e "givenName") ++ " " ++ jsStr (getAttr e "sn")))
          "displayName")) := by
    simp [buildEntry, hdp, getAttr_setAttr]
  refine ⟨hafter, ⟨?_, ?_, ?_, ?_, ?_⟩, ?_⟩
  · simp [buildEntry, hdp, getAttr_setAttr]
  · simp [buildEntry, hdp, getAttr_setAttr]
  · simp [buildEntry, hdp, getAttr_setAttr]
  · simp [buildEntry, hdp, getAttr_setAttr]
  · simp [buildEntry, hdp, getAttr_setAttr]
  · rw [hafter]
    intro hEq
    rw [hEq, hcn] at hbcn
    exact Option.noConfusion hbcn

/-- C10 witness: the scenario record gains the derived fields. -/
theorem c10_witness :
    (V1.create ⟨"DC=x", "@c"⟩ [("sn", "User"), ("givenName", "Test")] (.ok ())
        (fun _ => .ok ())).2.2
      = (buildEntry ⟨"DC=x", "@c"⟩ [("sn", "User"), ("givenName", "Test")]).1 :=
  (c10_create_mutates ⟨"DC=x", "@c"⟩ [("sn", "User"), ("givenName", "Test")]
    (fun _ => .ok ()) (by decide) (by decide) (by decide) (by decide)).1

/-- C9 counterexample: a concrete successful create acquires a session
(bind) and terminates with no unbind in its trace, so the session is
still held on a success exit path. -/
theorem c9_counterexample :
    (V1.create ⟨"DC=x", "@c"⟩ [("sn", "User"), ("givenName", "Test")] (.ok ())
        (fun _ => .ok ())).1 = .ok () ∧
    (V1.create ⟨"DC=x", "@c"⟩ [("sn", "User"), ("givenName", "Test")] (.ok ())
        (fun _ => .ok ())).2.1 = [V1.Ev.bind, V1.Ev.add "CN=Test User,DC=x"] ∧
    V1.Ev.unbind ∉
      (V1.create ⟨"DC=x", "@c"⟩ [("sn", "User"), ("givenName", "Test")] (.ok ())
        (fun _ => .ok ())).2.1 := by
  refine ⟨rfl, rfl, ?_⟩
  decide

/-- C9 amended: create in the callback implementation acquires a fresh
session on every call (its client-event trace starts with the bind) and
releases it only when that bind itself fails (trace [bind, unbind]); on
every path past a successful bind the trace is exactly [bind, add] with
no unbind, whether the add succeeds or fails, so both post-bind exit
paths end with the session still held. -/
theorem c9_session_not_released (cfg : Config) (e : Entry)
    (addO : String → Except String Unit)
    (hsn : truthy (getAttr e "sn") = true)
    (hgn : truthy (getAttr e "givenName") = true) :
    (V1.create cfg e (.ok ()) addO).2.1.head? = some V1.Ev.bind ∧
    V1.Ev.unbind ∉ (V1.create cfg e (.ok ()) addO).2.1 ∧
    (V1.create cfg e (.ok ()) addO).2.1
      = [V1.Ev.bind, V1.Ev.add (buildEntry cfg e).2] ∧
    (∀ be, (V1.create cfg e (.error be) addO).2.1
      = [V1.Ev.bind, V1.Ev.unbind]) := by
  have hnil : e ≠ ([] : Entry) := by
    intro h
    rw [h] at hsn
    simp [getAttr, truthy] at hsn
  have htrace : (V1.create cfg e (.ok ()) addO).2.1
      = [V1.Ev.bind, V1.Ev.add (buildEntry cfg e).2] := by
    simp only [V1.create, hsn, hgn, if_neg hnil, Bool.not_true, Bool.or_self,
      Bool.false_or, if_neg]
    cases addO (buildEntry cfg e).2 <;> simp
  refine ⟨by rw [htrace]; rfl, by rw [htrace]; simp, htrace, fun be => ?_⟩
  simp only [V1.create, hsn, hgn, if_neg hnil, Bool.not_true, Bool.or_self,
    Bool.false_or, if_neg]
  rfl

/-- C9 amended witness: the concrete failing-add create still holds the
session, and the same create with a failing bind releases it. -/
theorem c9_witness :
    V1.Ev.unbind ∉
      (V1.create ⟨"DC=x", "@c"⟩ [("sn", "User"), ("givenName", "Test")] (.ok ())
        (fun _ => .error "boom")).2.1 ∧
    (V1.create ⟨"DC=x", "@c"⟩ [("sn", "User"), ("givenName", "Test")]
        (.error "down") (fun _ => .error "boom")).2.1
      = [V1.Ev.bind, V1.Ev.unbind] :=
  ⟨(c9_session_not_released ⟨"DC=x", "@c"⟩
      [("sn", "User"), ("givenName", "Test")]
      (fun _ => .error "boom") (by decide) (by decide)).2.1,
   (c9_session_not_released ⟨"DC=x", "@c"⟩
      [("sn", "User"), ("givenName", "Test")]
      (fun _ => .error "boom") (by decide) (by decide)).2.2.2 "down"⟩

/-- C4: delete-type changes resolve to the current entry value, any
change whose resolved value is undefined is dropped, and an empty
resulting change set short-circuits update to success with no transport
call. -/
theorem c4_update_planning (cfg : Config) (cs : List V2.ChangeReq) (u : Entry)
    (users : List Entry)
    (modifyO : Option String → List V2.LChange → Except String Unit)
    (renameO : Option String → String → Except String Unit) :
    V2.planChanges (some u) cs
      = .ok (cs.filterMap (fun c =>
          (V2.resolvedVal u c).map (fun v => ⟨c.type, c.attr, v⟩))) ∧
    (∀ c : V2.ChangeReq, c.type = "delete" →
      V2.resolvedVal u c = getAttr u c.attr) ∧
    (((cs.map (fun c => c.attr)).any
        (fun a => a == "givenName" || a == "sn")) = false →
      V2.planChanges users.head? cs = .ok [] →
      V2.update cfg cs users modifyO renameO = (.ok (), [])) := by
  refine ⟨V2.planChanges_some u cs, ?_, ?_⟩
  · intro c hc
    simp [V2.resolvedVal, hc]
  · intro hnr hp
    rw [V2.update_norename_eq cfg cs users modifyO renameO hnr, hp]

/-- C4 witness: a delete-type change on an attribute absent from the
resolved entry yields success with no transport mutation. -/
theorem c4_witness :
    V2.update ⟨"DC=x", "@c"⟩ [⟨"delete", "mail", none⟩]
        [[("dn", "CN=a,DC=x")]] (fun _ _ => .error "X") (fun _ _ => .error "X")
      = (.ok (), []) :=
  (c4_update_planning ⟨"DC=x", "@c"⟩ [⟨"delete", "mail", none⟩]
    [("dn", "CN=a,DC=x")] [[("dn", "CN=a,DC=x")]]
    (fun _ _ => .error "X") (fun _ _ => .error "X")).2.2 rfl rfl

/-- C5: bulk delete issues an independent del per resolved entry (the
trace contains one call per entry no matter which outcomes occur), all
successes aggregate to success, and in the two-entry scenario where the
first succeeds and the second fails the aggregate failure is exactly
the transport error of the failing target while both calls were issued. -/
theorem c5_delete_bulk (users : List Entry)
    (delO : Option String → Except String Unit) (u1 u2 : Entry) (err : String) :
    (V2.del users delO).2 = users.map (fun u => V2.TCall.del (getAttr u "dn")) ∧
    ((∀ u ∈ users, delO (getAttr u "dn") = .ok ()) →
      (V2.del users delO).1 = .ok (users.map (fun _ => true))) ∧
    (delO (getAttr u1 "dn") = .ok () → delO (getAttr u2 "dn") = .error err →
      V2.del [u1, u2] delO
        = (.error err, [.del (getAttr u1 "dn"), .del (getAttr u2 "dn")])) := by
  refine ⟨rfl, ?_, ?_⟩
  · intro h
    have hall := V2.collectAll_ok (users.map fun u => delO (getAttr u "dn"))
      (fun x hx => by
        obtain ⟨u, hu, rfl⟩ := List.mem_map.mp hx
        exact h u hu)
    show V2.collectAll (users.map fun u => delO (getAttr u "dn")) = _
    rw [hall]
    simp
  · intro h1 h2
    simp [V2.del, V2.collectAll, Except.map, h1, h2]

/-- C5 witness: the two-entry scenario with the second delete failing. -/
theorem c5_witness :
    V2.del [[("dn", "CN=a,DC=x")], [("dn", "CN=b,DC=x")]]
        (fun d => if d = some "CN=b,DC=x" then .error "boom" else .ok ())
      = (.error "boom",
         [.del (some "CN=a,DC=x"), .del (some "CN=b,DC=x")]) :=
  (c5_delete_bulk [[("dn", "CN=a,DC=x")], [("dn", "CN=b,DC=x")]]
    (fun d => if d = some "CN=b,DC=x" then .error "boom" else .ok ())
    [("dn", "CN=a,DC=x")] [("dn", "CN=b,DC=x")] "boom").2.2 rfl rfl

/-- C3 counterexample: a concrete update whose filter resolves zero
entries fails with a JavaScript TypeError from dereferencing the
missing entry, which is not the NotFoundError the claim states. -/
theorem c3_counterexample :
    (V2.update ⟨"DC=x", "@c"⟩ [⟨"replace", "mail", some "a@b"⟩] []
        (fun _ _ => .ok ()) (fun _ _ => .ok ())).1
      = .error (.typeError "Cannot read property dn of undefined") ∧
    V2.JsErr.typeError "Cannot read property dn of undefined"
      ≠ V2.JsErr.notFound :=
  ⟨rfl, by decide⟩

/-- C3 amended: when zero entries resolve, update issues no transport
call and never fails with NotFoundError — it either fails with a
TypeError from dereferencing the missing entry or silently succeeds,
and it succeeds exactly when no requested change names givenName or sn,
none is delete-typed and every requested value is undefined (the change
set then resolves empty); when entries resolve, every transport call
targets the dn of the first resolved entry. -/
theorem c3_zero_entries_first_target (cfg : Config) (cs : List V2.ChangeReq)
    (u : Entry) (rest : List Entry)
    (modifyO : Option String → List V2.LChange → Except String Unit)
    (renameO : Option String → String → Except String Unit) :
    (V2.update cfg cs [] modifyO renameO).2 = [] ∧
    (V2.update cfg cs [] modifyO renameO).1 ≠ .error V2.JsErr.notFound ∧
    ((V2.update cfg cs [] modifyO renameO).1 = .ok () ∨
      ∃ msg, (V2.update cfg cs [] modifyO renameO).1
        = .error (.typeError msg)) ∧
    ((V2.update cfg cs [] modifyO renameO).1 = .ok () ↔
      (((cs.map (fun c => c.attr)).any
          (fun a => a == "givenName" || a == "sn")) = false ∧
        ∀ c ∈ cs, c.type ≠ "delete" ∧ c.value = none)) ∧
    (∀ call ∈ (V2.update cfg cs (u :: rest) modifyO renameO).2,
      call.dnOf = getAttr u "dn") := by
  have hnone : ([] : List Entry).head? = none := rfl
  have master :
      (V2.update cfg cs [] modifyO renameO = (.ok (), []) ∧
        ((cs.map (fun c => c.attr)).any
          (fun a => a == "givenName" || a == "sn")) = false ∧
        V2.planChanges none cs = .ok []) ∨
      (∃ msg, V2.update cfg cs [] modifyO renameO
          = (.error (.typeError msg), [])) := by
    by_cases hr : ((cs.map (fun c => c.attr)).any
        (fun a => a == "givenName" || a == "sn")) = true
    · right
      rcases hsn : cs.find? (fun c => c.attr = "sn") with _ | csn
      · refine ⟨"Cannot read property sn of undefined", ?_⟩
        simp [V2.update, hr, hnone, V2.renamePlan, hsn, V2.jsField,
          Except.map, bind, Except.bind]
      · rcases hgn : cs.find? (fun c => c.attr = "givenName") with _ | cgn
        · refine ⟨"Cannot read property givenName of undefined", ?_⟩
          simp [V2.update, hr, hnone, V2.renamePlan, hsn, hgn, V2.jsField,
            Except.map, bind, Except.bind]
        · have hrp : V2.renamePlan none cs cfg.baseDN
              = .ok (cs ++ [⟨"replace", "displayName",
                  some (jsStr cgn.value ++ " " ++ jsStr csn.value)⟩],
                "CN=" ++ (jsStr cgn.value ++ " " ++ jsStr csn.value) ++ ","
                  ++ cfg.baseDN) := by
            simp [V2.renamePlan, hsn, hgn, bind, Except.bind, pure, Except.pure]
          rcases V2.planChanges_none_shape cs with ⟨l, hl⟩ | ⟨msg, hm⟩
          · have hpl : V2.planChanges none (cs ++ [⟨"replace", "displayName",
                some (jsStr cgn.value ++ " " ++ jsStr csn.value)⟩])
                = .ok (l ++ [⟨"replace", "displayName",
                    jsStr cgn.value ++ " " ++ jsStr csn.value⟩]) := by
              rw [V2.planChanges_append_one, hl]
            obtain ⟨x, xs, hxxs⟩ : ∃ x xs,
                l ++ [(⟨"replace", "displayName",
                  jsStr cgn.value ++ " " ++ jsStr csn.value⟩ : V2.LChange)]
                  = x :: xs := by
              cases l with
              | nil => exact ⟨_, _, rfl⟩
              | cons a as => exact ⟨_, _, rfl⟩
            rw [hxxs] at hpl
            refine ⟨"Cannot read property dn of undefined", ?_⟩
            simp [V2.update, hr, hnone, hrp, Except.map, hpl, V2.jsField]
          · have hpl : V2.planChanges none (cs ++ [⟨"replace", "displayName",
                some (jsStr cgn.value ++ " " ++ jsStr csn.value)⟩])
                = .error (.typeError msg) := by
              rw [V2.planChanges_append_one, hm]
            refine ⟨msg, ?_⟩
            simp [V2.update, hr, hnone, hrp, Except.map, hpl]
    · have hr0 : ((cs.map (fun c => c.attr)).any
          (fun a => a == "givenName" || a == "sn")) = false := by
        simpa using hr
      have heq := V2.update_norename_eq cfg cs [] modifyO renameO hr0
      rcases V2.planChanges_none_shape cs with ⟨l, hl⟩ | ⟨msg, hm⟩
      · cases l with
        | nil =>
            left
            refine ⟨?_, hr0, hl⟩
            rw [heq, hnone, hl]
        | cons x xs =>
            right
            refine ⟨"Cannot read property dn of undefined", ?_⟩
            rw [heq, hnone, hl]
            rfl
      · right
        refine ⟨msg, ?_⟩
        rw [heq, hnone, hm]
  refine ⟨?_, ?_, ?_, ?_, V2.update_calls_dn cfg cs u rest modifyO renameO⟩
  · rcases master with ⟨h, _, _⟩ | ⟨msg, h⟩ <;> rw [h]
  · rcases master with ⟨h, _, _⟩ | ⟨msg, h⟩ <;> rw [h] <;> simp
  · rcases master with ⟨h, _, _⟩ | ⟨msg, h⟩
    · left
      rw [h]
    · right
      exact ⟨msg, by rw [h]⟩
  · constructor
    · intro hok
      rcases master with ⟨h, hr0, hnil⟩ | ⟨msg, h⟩
      · exact ⟨hr0, (V2.planChanges_none_eq_nil_iff cs).mp hnil⟩
      · rw [h] at hok
        simp at hok
    · rintro ⟨hr0, hall⟩
      have hnil := (V2.planChanges_none_eq_nil_iff cs).mpr hall
      rw [V2.update_norename_eq cfg cs [] modifyO renameO hr0, hnone, hnil]

/-- C3 amended witness: a zero-entry update with a surviving replace
change settles with a TypeError (not NotFoundError), and one whose
change set resolves empty silently succeeds. -/
theorem c3_witness :
    (V2.update ⟨"DC=x", "@c"⟩ [⟨"replace", "mail", none⟩] []
        (fun _ _ => .ok ()) (fun _ _ => .ok ())).1 = .ok () ∧
    (V2.update ⟨"DC=x", "@c"⟩ [⟨"replace", "mail", some "a@b"⟩] []
        (fun _ _ => .ok ()) (fun _ _ => .ok ())).1
      ≠ .error V2.JsErr.notFound :=
  ⟨(c3_zero_entries_first_target ⟨"DC=x", "@c"⟩ [⟨"replace", "mail", none⟩]
      [] [] (fun _ _ => .ok ()) (fun _ _ => .ok ())).2.2.2.1.mpr
      ⟨rfl, by decide⟩,
   (c3_zero_entries_first_target ⟨"DC=x", "@c"⟩
      [⟨"replace", "mail", some "a@b"⟩] [] []
      (fun _ _ => .ok ()) (fun _ _ => .ok ())).2.1⟩

/-- C1: when the change list contains a replace of sn or givenName and
an entry resolves, the planner appends a displayName replace-change
holding the full name (caller-supplied sn/givenName values taking
precedence per attribute over the resolved entry), that change survives
planning as the final materialized change, the attribute modify is
issued first on the dn of the first entry, and the DN rename to
CN=fullName,baseDN is issued exactly when the modify succeeds. -/
theorem c1_update_rename_flow (cfg : Config) (cs : List V2.ChangeReq) (u : Entry)
    (rest : List Entry)
    (modifyO : Option String → List V2.LChange → Except String Unit)
    (renameO : Option String → String → Except String Unit)
    (hc : ∃ c ∈ cs, c.type = "replace" ∧ (c.attr = "sn" ∨ c.attr = "givenName")) :
    ∃ pcs : List V2.LChange,
      V2.planChanges (some u)
          (cs ++ [⟨"replace", "displayName", some (V2.fullNameOf cs u)⟩])
        = .ok pcs ∧
      pcs.getLast? = some ⟨"replace", "displayName", V2.fullNameOf cs u⟩ ∧
      (∀ te, modifyO (getAttr u "dn") pcs = .error te →
        V2.update cfg cs (u :: rest) modifyO renameO
          = (.error (.transport te), [.modify (getAttr u "dn") pcs])) ∧
      (modifyO (getAttr u "dn") pcs = .ok () →
        (V2.update cfg cs (u :: rest) modifyO renameO).2
          = [.modify (getAttr u "dn") pcs,
             .modifyDN (getAttr u "dn")
               ("CN=" ++ V2.fullNameOf cs u ++ "," ++ cfg.baseDN)]) := by
  have hr : ((cs.map (fun c => c.attr)).any
      (fun a => a == "givenName" || a == "sn")) = true := by
    refine (V2.rename_detect cs).mpr ?_
    obtain ⟨c, hm, _, hattr⟩ := hc
    exact ⟨c, hm, hattr.symm⟩
  refine ⟨(cs.filterMap (fun c =>
      (V2.resolvedVal u c).map (fun v => ⟨c.type, c.attr, v⟩)))
      ++ [⟨"replace", "displayName", V2.fullNameOf cs u⟩],
    V2.planChanges_append_display u cs (V2.fullNameOf cs u), ?_, ?_, ?_⟩
  · exact List.getLast?_concat _
  · intro te hte
    rw [V2.update_rename_eq cfg cs u rest modifyO renameO hr, hte]
  · intro hok
    rw [V2.update_rename_eq cfg cs u rest modifyO renameO hr, hok]
    cases renameO (getAttr u "dn")
        ("CN=" ++ V2.fullNameOf cs u ++ "," ++ cfg.baseDN) with
    | error te => rfl
    | ok _ => rfl

/-- C1 witness: the spec scenario — an sn replace from User to Smith on
an entry with givenName Test synthesizes the Test Smith displayName
change, modifies first and then renames to CN=Test Smith,DC=x. -/
theorem c1_witness :
    ∃ pcs : List V2.LChange,
      V2.planChanges
          (some [("givenName", "Test"), ("sn", "User"),
                 ("dn", "CN=Test User,DC=x")])
          [⟨"replace", "sn", some "Smith"⟩,
           ⟨"replace", "displayName", some "Test Smith"⟩] = .ok pcs ∧
      pcs.getLast? = some ⟨"replace", "displayName", "Test Smith"⟩ ∧
      (∀ te, (Except.ok () : Except String Unit) = .error te →
        V2.update ⟨"DC=x", "@c"⟩ [⟨"replace", "sn", some "Smith"⟩]
            [[("givenName", "Test"), ("sn", "User"),
              ("dn", "CN=Test User,DC=x")]]
            (fun _ _ => .ok ()) (fun _ _ => .ok ())
          = (.error (.transport te), [.modify (some "CN=Test User,DC=x") pcs])) ∧
      ((Except.ok () : Except String Unit) = .ok () →
        (V2.update ⟨"DC=x", "@c"⟩ [⟨"replace", "sn", some "Smith"⟩]
            [[("givenName", "Test"), ("sn", "User"),
              ("dn", "CN=Test User,DC=x")]]
            (fun _ _ => .ok ()) (fun _ _ => .ok ())).2
          = [.modify (some "CN=Test User,DC=x") pcs,
             .modifyDN (some "CN=Test User,DC=x") "CN=Test Smith,DC=x"]) :=
  c1_update_rename_flow ⟨"DC=x", "@c"⟩ [⟨"replace", "sn", some "Smith"⟩]
    [("givenName", "Test"), ("sn", "User"), ("dn", "CN=Test User,DC=x")] []
    (fun _ _ => .ok ()) (fun _ _ => .ok ())
    ⟨⟨"replace", "sn", some "Smith"⟩, by simp, rfl, Or.inl rfl⟩
